import Mathlib

/-!
Verification of the WAV sndio backend and pipeline test contract of the
roc-toolkit source excerpt.  Every definition is a shallow embedding of a
function in the C++ sources; machine integers are modelled as `Nat` with
explicit reduction modulo 2^16 / 2^32 where the C++ code stores into
`uint16_t` / `uint32_t` fields.  The host is assumed little-endian, as the
claims under test require, so `htole16` / `htole32` / `swap_native_le` are the
identity and `swap_native_be` is a byte swap.
-/

set_option maxHeartbeats 1000000
set_option maxRecDepth 8000

/-- Little-endian byte serialization of a 16-bit word, as produced by
`memcpy` of a `uint16_t` on a little-endian host. -/
def le16 (x : Nat) : List Nat :=
  [x % 256, x / 256 % 256]

/-- Little-endian byte serialization of a 32-bit word, as produced by
`memcpy` of a `uint32_t` on a little-endian host. -/
def le32 (x : Nat) : List Nat :=
  [x % 256, x / 256 % 256, x / 65536 % 256, x / 16777216 % 256]

/-- 32-bit byte swap: `core::EndianOps::swap_native_be<uint32_t>` on a
little-endian host converts a native word to big-endian byte order. -/
def bswap32 (x : Nat) : Nat :=
  (x % 256) * 16777216 + (x / 256 % 256) * 65536 + (x / 65536 % 256) * 256
    + (x / 16777216 % 256)

/-- The fields stored by a `WavHeader` object (both implementations declare the
same field list; `subchunk1_size_` is a `uint32_t` field in both headers).
Values are the in-memory words on a little-endian host. -/
structure WavHeaderFields where
  chunk_id : Nat
  format : Nat
  subchunk1_id : Nat
  subchunk1_size : Nat
  audio_format : Nat
  num_channels : Nat
  sample_rate : Nat
  byte_rate : Nat
  block_align : Nat
  bits_per_sample : Nat
  subchunk2_id : Nat
  deriving DecidableEq

/-- `WavHeader::WavHeader` of
`roc_sndio/target_wav/roc_sndio/wav_header.cpp` (lines 14-30): magic constants
are stored as raw native words (`0x52494646`, ...), `subchunk1_size_` is
`htole32(0x10)` = 16, and the numeric fields go through `htole16`/`htole32`,
the identity on a little-endian host.  `byte_rate` is computed in `uint32_t`
arithmetic, `block_align` is truncated into a `uint16_t` field. -/
def mkWavHeaderRaw (num_channels sample_rate bits_per_sample : Nat) : WavHeaderFields :=
  let nc := num_channels % 65536
  let sr := sample_rate % 4294967296
  let bps := bits_per_sample % 65536
  { chunk_id := 0x52494646
    format := 0x57415645
    subchunk1_id := 0x666d7420
    subchunk1_size := 0x10
    audio_format := 0x1
    num_channels := nc
    sample_rate := sr
    byte_rate := sr * nc * (bps / 8) % 4294967296
    block_align := nc * (bps / 8) % 65536
    bits_per_sample := bps
    subchunk2_id := 0x64617461 }

/-- `WavHeader::WavHeader` of `roc_sndio/wav_header.cpp` (lines 19-36): the
magic constants go through `EndianOps::swap_native_be<uint32_t>` (a byte swap
on a little-endian host), and `subchunk1_size_` is
`EndianOps::swap_native_le<uint16_t>(0x20)` = 32, widened into the `uint32_t`
field. -/
def mkWavHeaderSwapped (num_channels sample_rate bits_per_sample : Nat) :
    WavHeaderFields :=
  let nc := num_channels % 65536
  let sr := sample_rate % 4294967296
  let bps := bits_per_sample % 65536
  { chunk_id := bswap32 0x52494646
    format := bswap32 0x57415645
    subchunk1_id := bswap32 0x666d7420
    subchunk1_size := 0x20
    audio_format := 0x1
    num_channels := nc
    sample_rate := sr
    byte_rate := sr * nc * (bps / 8) % 4294967296
    block_align := nc * (bps / 8) % 65536
    bits_per_sample := bps
    subchunk2_id := bswap32 0x64617461 }

/-- `subchunk2_size_ = num_samples * num_channels_ * (bits_per_sample_ / 8u)`,
computed in `uint32_t` arithmetic (`WavHeader::to_bytes`, both files). -/
def wavDataSize (h : WavHeaderFields) (num_samples : Nat) : Nat :=
  num_samples % 4294967296 * h.num_channels * (h.bits_per_sample / 8) % 4294967296

/-- `WavHeader::to_bytes` (identical `memcpy` sequence in both
`wav_header.cpp` files, lines 45-78 / 51-83): serializes `chunk_id_`,
`chunk_size_ = 36 + subchunk2_size_`, `format_`, `subchunk1_id_`,
`subchunk1_size_`, `audio_format_`, `num_channels_`, `sample_rate_`,
`byte_rate_`, `block_align_`, `bits_per_sample_`, `subchunk2_id_` -- and stops.
`subchunk2_size_` is never copied into the byte array, so the result holds
exactly 40 defined bytes. -/
def wavHeaderToBytes (h : WavHeaderFields) (num_samples : Nat) : List Nat :=
  le32 h.chunk_id
    ++ le32 ((36 + wavDataSize h num_samples) % 4294967296)
    ++ le32 h.format
    ++ le32 h.subchunk1_id
    ++ le32 h.subchunk1_size
    ++ le16 h.audio_format
    ++ le16 h.num_channels
    ++ le32 h.sample_rate
    ++ le32 h.byte_rate
    ++ le16 h.block_align
    ++ le16 h.bits_per_sample
    ++ le32 h.subchunk2_id

/-- The header constructed by `WavSink::WavSink` of
`roc_sndio/target_wav/roc_sndio/wav_sink.cpp` (lines 18-22): bits_per_sample
is hard-coded to 16. -/
def wavSinkHeaderTarget (num_channels sample_rate : Nat) : WavHeaderFields :=
  mkWavHeaderRaw num_channels sample_rate 16

/-- The header constructed by `WavSink::WavSink` of
`roc_sndio/wav_sink.cpp` (lines 18-20): bits_per_sample is hard-coded
to 32. -/
def wavSinkHeaderMain (num_channels sample_rate : Nat) : WavHeaderFields :=
  mkWavHeaderSwapped num_channels sample_rate 32

theorem wavHeaderToBytes_length (h : WavHeaderFields) (n : Nat) :
    (wavHeaderToBytes h n).length = 40 := by
  simp [wavHeaderToBytes, le16, le32]

/-- C6: the two `WavHeader` implementations diverge.  For every choice of
constructor arguments the serialized byte sequences differ on a little-endian
machine: the raw variant lays all four magic constants (RIFF at bytes 0..3,
WAVE at 8..11, fmt at 12..15, data at 36..39) down as raw native words, i.e.
byte-reversed on disk, while the swapped variant byte-swaps them to
big-endian so the ASCII magics appear in order; they disagree on the fmt
subchunk size field (16 versus 32); and the two `WavSink` constructors
request different bits-per-sample (16 versus 32). -/
theorem wav_header_implementations_diverge :
    (∀ nc sr bps n,
        wavHeaderToBytes (mkWavHeaderRaw nc sr bps) n
          ≠ wavHeaderToBytes (mkWavHeaderSwapped nc sr bps) n)
    ∧ (∀ nc sr bps n,
        (wavHeaderToBytes (mkWavHeaderRaw nc sr bps) n).take 4 = [70, 70, 73, 82]
          ∧ (wavHeaderToBytes (mkWavHeaderSwapped nc sr bps) n).take 4
              = [82, 73, 70, 70])
    ∧ (∀ nc sr bps n,
        ((wavHeaderToBytes (mkWavHeaderRaw nc sr bps) n).drop 8).take 4
            = [69, 86, 65, 87]
          ∧ ((wavHeaderToBytes (mkWavHeaderRaw nc sr bps) n).drop 12).take 4
              = [32, 116, 109, 102]
          ∧ ((wavHeaderToBytes (mkWavHeaderRaw nc sr bps) n).drop 36).take 4
              = [97, 116, 97, 100]
          ∧ ((wavHeaderToBytes (mkWavHeaderSwapped nc sr bps) n).drop 8).take 4
              = [87, 65, 86, 69]
          ∧ ((wavHeaderToBytes (mkWavHeaderSwapped nc sr bps) n).drop 12).take 4
              = [102, 109, 116, 32]
          ∧ ((wavHeaderToBytes (mkWavHeaderSwapped nc sr bps) n).drop 36).take 4
              = [100, 97, 116, 97])
    ∧ (∀ nc sr bps,
        (mkWavHeaderRaw nc sr bps).subchunk1_size = 16
          ∧ (mkWavHeaderSwapped nc sr bps).subchunk1_size = 32)
    ∧ (∀ nc sr,
        (wavSinkHeaderTarget nc sr).bits_per_sample = 16
          ∧ (wavSinkHeaderMain nc sr).bits_per_sample = 32) := by
  have htake : ∀ nc sr bps n,
      (wavHeaderToBytes (mkWavHeaderRaw nc sr bps) n).take 4 = [70, 70, 73, 82]
        ∧ (wavHeaderToBytes (mkWavHeaderSwapped nc sr bps) n).take 4
            = [82, 73, 70, 70] := by
    intro nc sr bps n
    constructor <;>
      norm_num [wavHeaderToBytes, mkWavHeaderRaw, mkWavHeaderSwapped, le32, le16,
        bswap32, List.cons_append, List.nil_append, List.take_succ_cons,
        List.take_zero]
  refine ⟨?_, htake, ?_, ?_, ?_⟩
  · intro nc sr bps n h
    have h4 := congrArg (List.take 4) h
    rw [(htake nc sr bps n).1, (htake nc sr bps n).2] at h4
    simp at h4
  · intro nc sr bps n
    refine ⟨?_, ?_, ?_, ?_, ?_, ?_⟩ <;>
      norm_num [wavHeaderToBytes, mkWavHeaderRaw, mkWavHeaderSwapped, le32, le16,
        bswap32, List.cons_append, List.nil_append, List.take_succ_cons,
        List.take_zero, List.drop_succ_cons, List.drop_zero]
  · intro nc sr bps
    constructor <;> rfl
  · intro nc sr
    constructor <;> rfl

/-! ## Device configuration and construction (`roc_sndio` sinks and sources) -/

/-- The slice of `sndio::Config` read by the WAV sink/source constructors:
channel count and rate of `config.sample_spec`, `config.latency` and
`config.frame_length` (both in nanoseconds). -/
structure SndioConfig where
  num_channels : Nat
  sample_rate : Nat
  latency : Int
  frame_length : Int
  deriving DecidableEq

/-- Result of calling a device method: either a `roc_panic` fired, or the call
returned a boolean. -/
inductive CallResult where
  | panicked
  | ret (b : Bool)
  deriving DecidableEq

/-- Observable state of a `WavSink` object. -/
structure WavSinkState where
  valid : Bool
  file_open : Bool
  header : WavHeaderFields
  frame_length : Int
  deriving DecidableEq

/-- `WavSink::WavSink` of `roc_sndio/wav_sink.cpp` (lines 18-44): builds the
header with 32 bits per sample, then validates in order: zero channels,
nonzero io latency, zero frame length; each failure returns early with
`valid_ == false` and the file not open. -/
def wavSinkInit (cfg : SndioConfig) : WavSinkState :=
  let header := wavSinkHeaderMain cfg.num_channels cfg.sample_rate
  if cfg.num_channels = 0 then
    { valid := false, file_open := false, header, frame_length := 0 }
  else if cfg.latency ≠ 0 then
    { valid := false, file_open := false, header, frame_length := 0 }
  else if cfg.frame_length = 0 then
    { valid := false, file_open := false, header, frame_length := cfg.frame_length }
  else
    { valid := true, file_open := false, header, frame_length := cfg.frame_length }

/-- `WavSink::WavSink` of `roc_sndio/target_wav/roc_sndio/wav_sink.cpp`
(lines 18-47): identical validation, but the header is built with 16 bits per
sample. -/
def wavSinkInitTarget (cfg : SndioConfig) : WavSinkState :=
  let header := wavSinkHeaderTarget cfg.num_channels cfg.sample_rate
  if cfg.num_channels = 0 then
    { valid := false, file_open := false, header, frame_length := 0 }
  else if cfg.latency ≠ 0 then
    { valid := false, file_open := false, header, frame_length := 0 }
  else if cfg.frame_length = 0 then
    { valid := false, file_open := false, header, frame_length := cfg.frame_length }
  else
    { valid := true, file_open := false, header, frame_length := cfg.frame_length }

/-- `WavSink::open` of `roc_sndio/wav_sink.cpp` (lines 54-72):
`roc_panic_if(!valid_)`; panic if `output_file_ != NULL` (a second open after
a successful one); otherwise `open_` runs `fopen` (outcome abstracted by
`fopen_ok`) and `setup_buffer_` sizes and allocates the sample buffer (outcome
abstracted by `alloc_ok`; the host float computation of
`calculate_buffer_size_` is outside the embedding). -/
def wavSinkOpen (st : WavSinkState) (fopen_ok alloc_ok : Bool) :
    CallResult × WavSinkState :=
  if !st.valid then (.panicked, st)
  else if st.file_open then (.panicked, st)
  else if !fopen_ok then (.ret false, st)
  else if !alloc_ok then (.ret false, { st with file_open := true })
  else (.ret true, { st with file_open := true })

/-- `WavSink::open` of `roc_sndio/target_wav/roc_sndio/wav_sink.cpp`
(lines 57-75).  The guard is `if (!output_file_) roc_panic(...)`: it fires
when the file is NOT yet open, i.e. on the very first call. -/
def wavSinkOpenTarget (st : WavSinkState) (fopen_ok alloc_ok : Bool) :
    CallResult × WavSinkState :=
  if !st.valid then (.panicked, st)
  else if !st.file_open then (.panicked, st)
  else if !fopen_ok then (.ret false, st)
  else if !alloc_ok then (.ret true, st)
  else (.ret true, st)

/-! ## WavSink file writing (`write` / `write_`) -/

/-- The on-disk WAV file as the sink mutates it: the 44 header bytes at the
start of the file, and the sample payload appended after them. -/
structure WavFileState where
  header : List Nat
  data : List Int
  deriving DecidableEq

/-- `WavSink::write_` of `roc_sndio/wav_sink.cpp` (lines 225-251): when
`n_samples > 0` it seeks to the start, regenerates the header bytes via
`to_bytes(n_samples)` and `fwrite`s 44 bytes of the freshly `new`-allocated
array -- only 40 of which `to_bytes` filled, so the last 4 bytes (where the
data-chunk size field of a canonical WAV header lives) carry the
uninitialized allocation content, modelled by `junk` -- then seeks to the end
and appends the samples. -/
def wavSinkWriteChunk (hd : WavHeaderFields) (junk : List Nat)
    (fs : WavFileState) (samples : List Int) : WavFileState :=
  if samples.length = 0 then fs
  else { header := wavHeaderToBytes hd samples.length ++ junk,
         data := fs.data ++ samples }

/-- The buffer-filling loop of `WavSink::write`: samples are copied one by one
into the internal buffer, which is flushed to `write_` whenever it reaches
capacity `n`, with one final flush of the remainder after the loop (a no-op
for an empty remainder, matching the `n_samples > 0` guard of `write_`).
Returns the successive sample batches handed to `write_`. -/
def bufferLoadsGo (n : Nat) : List Int → List Int → List (List Int)
  | cur, [] => if cur.length = 0 then [] else [cur]
  | cur, x :: rest =>
      if (cur ++ [x]).length = n then (cur ++ [x]) :: bufferLoadsGo n [] rest
      else bufferLoadsGo n (cur ++ [x]) rest

/-- The sample batches `WavSink::write` flushes for one frame.  A zero
capacity would make the C loop spin forever; a successful `open` guarantees a
positive buffer size. -/
def bufferLoads (n : Nat) (xs : List Int) : List (List Int) :=
  if n = 0 then [] else bufferLoadsGo n [] xs

/-- `WavSink::write` of `roc_sndio/wav_sink.cpp` (lines 146-169):
`roc_panic_if(!valid_)`, then copies the frame into the internal buffer,
flushing with `write_` on every full buffer and once at the end. -/
def wavSinkWrite (st : WavSinkState) (junk : List Nat) (bufsize : Nat)
    (fs : WavFileState) (frame : List Int) : CallResult × WavFileState :=
  if !st.valid then (.panicked, fs)
  else (.ret true,
    (bufferLoads bufsize frame).foldl (wavSinkWriteChunk st.header junk) fs)

/-- The bytes where a canonical 44-byte WAV header keeps the data-chunk size:
offsets 40..43 of the written header. -/
def headerDataSizeField (fs : WavFileState) : List Nat :=
  (fs.header.take 44).drop 40

/-- The bytes where the WAV header keeps the RIFF chunk size: offsets 4..7. -/
def headerChunkSizeField (fs : WavFileState) : List Nat :=
  (fs.header.take 8).drop 4

/-! ## WavSource state machine (`roc_sndio/wav_source.cpp`) -/

/-- Observable state of a `WavSource` object.  `fileData`/`pos` model the
`drwav` handle: the decoded sample stream and the read cursor
(`drwav_read_pcm_frames_f32` returns `min(requested, remaining)` samples and
advances the cursor; `drwav_seek_to_pcm_frame(0)` resets it). -/
structure WavSourceState where
  valid : Bool
  paused : Bool
  eof : Bool
  file_opened : Bool
  pos : Nat
  fileData : List Int
  buffer_size : Nat
  deriving DecidableEq

/-- `WavSource::WavSource` of `roc_sndio/wav_source.cpp` (lines 17-46): the
same ordered validation as the sink (zero channels, nonzero latency, zero
frame length). -/
def wavSourceInit (cfg : SndioConfig) : WavSourceState :=
  if cfg.num_channels = 0 then
    { valid := false, paused := false, eof := false, file_opened := false,
      pos := 0, fileData := [], buffer_size := 0 }
  else if cfg.latency ≠ 0 then
    { valid := false, paused := false, eof := false, file_opened := false,
      pos := 0, fileData := [], buffer_size := 0 }
  else if cfg.frame_length = 0 then
    { valid := false, paused := false, eof := false, file_opened := false,
      pos := 0, fileData := [], buffer_size := 0 }
  else
    { valid := true, paused := false, eof := false, file_opened := false,
      pos := 0, fileData := [], buffer_size := 0 }

/-- `WavSource::open` of `roc_sndio/wav_source.cpp` (lines 56-79):
`roc_panic_if(!valid_)`; panic if already opened; `open_` may fail on
`drwav_init_file` (`drwav_ok`) or on a sample-rate mismatch (`rate_match`),
`setup_buffer_` may compute a zero buffer size or fail to allocate
(`alloc_ok`); only full success sets `file_opened_` and installs the decoded
stream. -/
def wavSourceOpen (st : WavSourceState) (drwav_ok rate_match alloc_ok : Bool)
    (file : List Int) (bufsz : Nat) : CallResult × WavSourceState :=
  if !st.valid then (.panicked, st)
  else if st.file_opened then (.panicked, st)
  else if !drwav_ok then (.ret false, st)
  else if !rate_match then (.ret false, st)
  else if bufsz = 0 then (.ret false, st)
  else if !alloc_ok then (.ret false, st)
  else (.ret true,
    { st with file_opened := true, fileData := file, pos := 0,
              buffer_size := bufsz })

/-- `sndio::DeviceState` values observable through `WavSource::state`. -/
inductive DeviceState where
  | Active
  | Paused
  deriving DecidableEq

/-- `WavSource::state` (lines 85-93): paused flag decides Paused/Active. -/
def wavSourceDeviceState (st : WavSourceState) : DeviceState :=
  if st.paused then .Paused else .Active

/-- `WavSource::pause` (lines 95-98): unconditionally sets the flag. -/
def wavSourcePause (st : WavSourceState) : WavSourceState :=
  { st with paused := true }

/-- `WavSource::resume` (lines 100-104): unconditionally clears the flag and
returns true. -/
def wavSourceResume (st : WavSourceState) : WavSourceState × Bool :=
  ({ st with paused := false }, true)

/-- `WavSource::restart` (lines 106-121): seeks to frame 0 (`seek_ok` models
`drwav_seek_to_pcm_frame` succeeding); on success clears `paused_` and `eof_`
and returns true, on failure returns false leaving the state as it was. -/
def wavSourceRestart (st : WavSourceState) (seek_ok : Bool) :
    WavSourceState × Bool :=
  if seek_ok then ({ st with pos := 0, paused := false, eof := false }, true)
  else (st, false)

/-- The `while (frame_left != 0)` loop of `WavSource::read` (lines 189-206).
Per iteration it requests `n_samples = min(frame_left, buffer_size_)` decoded
samples; `drwav` returns `min(n_samples, remaining)` and advances the cursor.
A short return (`frames_read < n_samples`) sets eof and breaks BEFORE the
`memcpy`, so the samples of a short final chunk are consumed but discarded.
Returns (new cursor, frame_left remaining, samples copied to the frame,
eof hit).  A zero `buffer_size` would loop forever in C; here it returns with
no progress, and every theorem assumes the positive size that a successful
`open` guarantees. -/
def drwavReadChunks (file : List Int) (bs : Nat) :
    Nat → Nat → Nat → List Int → Nat × Nat × List Int × Bool
  | 0, pos, frameLeft, acc => (pos, frameLeft, acc, false)
  | fuel + 1, pos, frameLeft, acc =>
    if frameLeft = 0 then (pos, 0, acc, false)
    else if bs = 0 then (pos, frameLeft, acc, false)
    else
      let n := min frameLeft bs
      let got := min n (file.length - pos)
      if got < n then (pos + got, frameLeft, acc, true)
      else drwavReadChunks file bs fuel (pos + n) (frameLeft - n)
        (acc ++ (file.drop pos).take n)

/-- The loop entered with `frame_left` iterations of budget: every iteration
copies at least one sample (for a positive buffer size), so `frame_left`
bounds the iteration count and the budget is never exhausted. -/
def drwavReadLoop (file : List Int) (bs : Nat) (pos frameLeft : Nat)
    (acc : List Int) : Nat × Nat × List Int × Bool :=
  drwavReadChunks file bs frameLeft pos frameLeft acc

/-- `WavSource::read` (lines 173-217): returns false at once when paused or
eof; panics when the file was never opened; otherwise runs the read loop,
stores the eof flag, returns false if not a single full chunk was copied
(`frame_left == frame.num_samples()`), else zero-fills the tail of the frame
and returns true.  The third component is the frame content on a true
return. -/
def wavSourceReadCall (st : WavSourceState) (frameLen : Nat) :
    CallResult × WavSourceState × List Int :=
  if st.paused || st.eof then (.ret false, st, [])
  else if !st.file_opened then (.panicked, st, [])
  else
    let out := drwavReadLoop st.fileData st.buffer_size st.pos frameLen []
    let st' := { st with pos := out.1, eof := out.2.2.2 }
    if out.2.1 = frameLen then (.ret false, st', [])
    else (.ret true, st', out.2.2.1 ++ List.replicate out.2.1 0)

/-! ## Construction validity -/

theorem wavSinkInit_valid_iff (cfg : SndioConfig) :
    (wavSinkInit cfg).valid = true
      ↔ (cfg.num_channels ≠ 0 ∧ cfg.latency = 0 ∧ cfg.frame_length ≠ 0) := by
  unfold wavSinkInit
  split <;> rename_i h1
  · simp [h1]
  · split <;> rename_i h2
    · simp [h1, h2]
    · split <;> rename_i h3
      · simp [h1, h2, h3]
      · push_neg at h2
        simp [h1, h2, h3]

theorem wavSinkInitTarget_valid_iff (cfg : SndioConfig) :
    (wavSinkInitTarget cfg).valid = true
      ↔ (cfg.num_channels ≠ 0 ∧ cfg.latency = 0 ∧ cfg.frame_length ≠ 0) := by
  unfold wavSinkInitTarget
  split <;> rename_i h1
  · simp [h1]
  · split <;> rename_i h2
    · simp [h1, h2]
    · split <;> rename_i h3
      · simp [h1, h2, h3]
      · push_neg at h2
        simp [h1, h2, h3]

theorem wavSourceInit_valid_iff (cfg : SndioConfig) :
    (wavSourceInit cfg).valid = true
      ↔ (cfg.num_channels ≠ 0 ∧ cfg.latency = 0 ∧ cfg.frame_length ≠ 0) := by
  unfold wavSourceInit
  split <;> rename_i h1
  · simp [h1]
  · split <;> rename_i h2
    · simp [h1, h2]
    · split <;> rename_i h3
      · simp [h1, h2, h3]
      · push_neg at h2
        simp [h1, h2, h3]

/-- C5: a configuration with zero channels, nonzero io latency (unsupported by
the WAV backend) or zero frame length makes every constructor
(`WavSink::WavSink` in both variants, `WavSource::WavSource`) fail:
`is_valid()` is false afterwards, and the resulting object is inert -- `open`
and `write` hit the `roc_panic_if(!valid_)` precondition guard and neither
touches the object state nor the file. -/
theorem invalid_config_is_inert (cfg : SndioConfig)
    (fo ao dok rok aok : Bool) (file : List Int) (bufsz bufn : Nat)
    (junk : List Nat) (fs : WavFileState) (frame : List Int)
    (h : cfg.num_channels = 0 ∨ cfg.latency ≠ 0 ∨ cfg.frame_length = 0) :
    (wavSinkInit cfg).valid = false
    ∧ wavSinkOpen (wavSinkInit cfg) fo ao = (.panicked, wavSinkInit cfg)
    ∧ wavSinkWrite (wavSinkInit cfg) junk bufn fs frame = (.panicked, fs)
    ∧ (wavSinkInitTarget cfg).valid = false
    ∧ wavSinkOpenTarget (wavSinkInitTarget cfg) fo ao
        = (.panicked, wavSinkInitTarget cfg)
    ∧ (wavSourceInit cfg).valid = false
    ∧ wavSourceOpen (wavSourceInit cfg) dok rok aok file bufsz
        = (.panicked, wavSourceInit cfg) := by
  have hks : (wavSinkInit cfg).valid = false := by
    rcases Bool.eq_false_or_eq_true (wavSinkInit cfg).valid with hb | hb
    · rcases (wavSinkInit_valid_iff cfg).mp hb with ⟨a, b, c⟩
      rcases h with h | h | h <;> simp_all
    · exact hb
  have hkt : (wavSinkInitTarget cfg).valid = false := by
    rcases Bool.eq_false_or_eq_true (wavSinkInitTarget cfg).valid with hb | hb
    · rcases (wavSinkInitTarget_valid_iff cfg).mp hb with ⟨a, b, c⟩
      rcases h with h | h | h <;> simp_all
    · exact hb
  have hsc : (wavSourceInit cfg).valid = false := by
    rcases Bool.eq_false_or_eq_true (wavSourceInit cfg).valid with hb | hb
    · rcases (wavSourceInit_valid_iff cfg).mp hb with ⟨a, b, c⟩
      rcases h with h | h | h <;> simp_all
    · exact hb
  refine ⟨hks, ?_, ?_, hkt, ?_, hsc, ?_⟩
  · simp [wavSinkOpen, hks]
  · simp [wavSinkWrite, hks]
  · simp [wavSinkOpenTarget, hkt]
  · simp [wavSourceOpen, hsc]

/-- Witness for C5 at a concrete zero-channel configuration. -/
theorem invalid_config_is_inert_witness :
    ((⟨0, 44100, 0, 1000⟩ : SndioConfig).num_channels = 0
        ∨ (⟨0, 44100, 0, 1000⟩ : SndioConfig).latency ≠ 0
        ∨ (⟨0, 44100, 0, 1000⟩ : SndioConfig).frame_length = 0)
    ∧ ((wavSinkInit ⟨0, 44100, 0, 1000⟩).valid = false
      ∧ wavSinkOpen (wavSinkInit ⟨0, 44100, 0, 1000⟩) true true
          = (.panicked, wavSinkInit ⟨0, 44100, 0, 1000⟩)
      ∧ wavSinkWrite (wavSinkInit ⟨0, 44100, 0, 1000⟩) [0, 0, 0, 0] 4 ⟨[], []⟩ [1, 2]
          = (.panicked, ⟨[], []⟩)
      ∧ (wavSinkInitTarget ⟨0, 44100, 0, 1000⟩).valid = false
      ∧ wavSinkOpenTarget (wavSinkInitTarget ⟨0, 44100, 0, 1000⟩) true true
          = (.panicked, wavSinkInitTarget ⟨0, 44100, 0, 1000⟩)
      ∧ (wavSourceInit ⟨0, 44100, 0, 1000⟩).valid = false
      ∧ wavSourceOpen (wavSourceInit ⟨0, 44100, 0, 1000⟩) true true true [1] 2
          = (.panicked, wavSourceInit ⟨0, 44100, 0, 1000⟩)) :=
  ⟨Or.inl rfl,
    invalid_config_is_inert ⟨0, 44100, 0, 1000⟩ true true true true true [1] 2 4
      [0, 0, 0, 0] ⟨[], []⟩ [1, 2] (Or.inl rfl)⟩

/-- A valid stereo configuration accepted by both WAV sinks and the source. -/
def goodSinkConfig : SndioConfig := ⟨2, 44100, 0, 10000000⟩

/-- C2: on a fresh valid sink the first `open()` must not panic and must
report the `fopen` outcome, while a second `open()` after a successful one is
a fatal precondition failure.  `roc_sndio/wav_sink.cpp` and
`roc_sndio/wav_source.cpp` satisfy this, but the
`roc_sndio/target_wav/roc_sndio/wav_sink.cpp` variant inverts its guard
(`if (!output_file_) roc_panic("wav sink: can't call open() more than
once")`), so the very first call on a fresh valid sink panics, contradicting
both the contract and the panic message itself. -/
theorem wav_sink_open_target_panics_on_first_call :
    (wavSinkInitTarget goodSinkConfig).valid = true
    ∧ (wavSinkOpenTarget (wavSinkInitTarget goodSinkConfig) true true).1
        = CallResult.panicked
    ∧ (wavSinkOpen (wavSinkInit goodSinkConfig) true true).1
        = CallResult.ret true
    ∧ (wavSinkOpen (wavSinkInit goodSinkConfig) false true).1
        = CallResult.ret false
    ∧ (wavSinkOpen (wavSinkOpen (wavSinkInit goodSinkConfig) true true).2
          true true).1 = CallResult.panicked
    ∧ (wavSourceOpen (wavSourceInit goodSinkConfig) true true true [1, 2] 2).1
        = CallResult.ret true
    ∧ (wavSourceOpen
          (wavSourceOpen (wavSourceInit goodSinkConfig) true true true [1, 2] 2).2
          true true true [1, 2] 2).1 = CallResult.panicked := by
  decide

/-! ## Pause / resume contract of the WAV source -/

/-- C7: pausing a valid active source reports `Paused` and makes `read`
return false without touching any internal state; resuming flips the source
back to `Active`, returns true, and restores exactly the pre-pause state, so
reading continues where it left off; pausing twice equals pausing once, and
resuming a non-paused source is a no-op that still returns true. -/
theorem wav_source_pause_resume_contract (st : WavSourceState) (n : Nat)
    (h : st.paused = false) :
    wavSourceDeviceState (wavSourcePause st) = DeviceState.Paused
    ∧ wavSourceReadCall (wavSourcePause st) n
        = (CallResult.ret false, wavSourcePause st, [])
    ∧ (wavSourceResume (wavSourcePause st)).1 = st
    ∧ (wavSourceResume (wavSourcePause st)).2 = true
    ∧ wavSourceDeviceState (wavSourceResume (wavSourcePause st)).1
        = DeviceState.Active
    ∧ wavSourcePause (wavSourcePause st) = wavSourcePause st
    ∧ wavSourceResume st = (st, true)
    ∧ wavSourceReadCall (wavSourceResume (wavSourcePause st)).1 n
        = wavSourceReadCall st n := by
  have hres : (wavSourceResume (wavSourcePause st)).1 = st := by
    cases st
    simp_all [wavSourceResume, wavSourcePause]
  refine ⟨?_, ?_, hres, rfl, ?_, ?_, ?_, ?_⟩
  · simp [wavSourceDeviceState, wavSourcePause]
  · simp [wavSourceReadCall, wavSourcePause]
  · rw [hres]
    simp [wavSourceDeviceState, h]
  · simp [wavSourcePause]
  · cases st
    simp_all [wavSourceResume]
  · rw [hres]

/-- Witness for C7 at a concrete opened source state. -/
theorem wav_source_pause_resume_contract_witness :
    (⟨true, false, false, true, 0, [5, 6], 2⟩ : WavSourceState).paused = false
    ∧ (wavSourceDeviceState (wavSourcePause ⟨true, false, false, true, 0, [5, 6], 2⟩)
          = DeviceState.Paused
      ∧ wavSourceReadCall (wavSourcePause ⟨true, false, false, true, 0, [5, 6], 2⟩) 1
          = (CallResult.ret false,
              wavSourcePause ⟨true, false, false, true, 0, [5, 6], 2⟩, [])
      ∧ (wavSourceResume (wavSourcePause ⟨true, false, false, true, 0, [5, 6], 2⟩)).1
          = ⟨true, false, false, true, 0, [5, 6], 2⟩
      ∧ (wavSourceResume (wavSourcePause ⟨true, false, false, true, 0, [5, 6], 2⟩)).2
          = true
      ∧ wavSourceDeviceState
            (wavSourceResume (wavSourcePause ⟨true, false, false, true, 0, [5, 6], 2⟩)).1
          = DeviceState.Active
      ∧ wavSourcePause (wavSourcePause ⟨true, false, false, true, 0, [5, 6], 2⟩)
          = wavSourcePause ⟨true, false, false, true, 0, [5, 6], 2⟩
      ∧ wavSourceResume ⟨true, false, false, true, 0, [5, 6], 2⟩
          = (⟨true, false, false, true, 0, [5, 6], 2⟩, true)
      ∧ wavSourceReadCall
            (wavSourceResume (wavSourcePause ⟨true, false, false, true, 0, [5, 6], 2⟩)).1 1
          = wavSourceReadCall ⟨true, false, false, true, 0, [5, 6], 2⟩ 1) :=
  ⟨rfl, wav_source_pause_resume_contract ⟨true, false, false, true, 0, [5, 6], 2⟩ 1 rfl⟩

/-! ## C10: what a buffer flush leaves in the file header -/

theorem wavSinkWriteChunk_foldl_data (hd : WavHeaderFields) (junk : List Nat)
    (fs0 : WavFileState) (ss : List (List Int)) :
    (ss.foldl (wavSinkWriteChunk hd junk) fs0).data = fs0.data ++ ss.flatten := by
  induction ss generalizing fs0 with
  | nil => simp
  | cons s ss ih =>
    rcases Nat.eq_zero_or_pos s.length with hz | hp
    · have hs : s = [] := List.length_eq_zero.mp hz
      simp [hs, wavSinkWriteChunk]
      exact ih fs0
    · simp only [List.foldl_cons, ih, wavSinkWriteChunk]
      rw [if_neg (by omega)]
      simp

/-- C10 counterexample: the sink writes a 44-byte header on every flush, but
`to_bytes` fills only 40 bytes, so the data-chunk size field (offsets 40..43)
holds the uninitialized allocation bytes -- here zeros -- and not the size of
the most recent flush (10 stereo 32-bit samples = 80 bytes). -/
theorem wav_sink_data_size_field_not_from_flush :
    headerChunkSizeField
        (wavSinkWriteChunk (wavSinkHeaderMain 2 44100) [0, 0, 0, 0]
          (wavSinkWriteChunk (wavSinkHeaderMain 2 44100) [0, 0, 0, 0]
            ⟨[], []⟩ (List.replicate 5 1))
          (List.replicate 10 1))
      = le32 (36 + 10 * 2 * 4)
    ∧ headerDataSizeField
        (wavSinkWriteChunk (wavSinkHeaderMain 2 44100) [0, 0, 0, 0]
          (wavSinkWriteChunk (wavSinkHeaderMain 2 44100) [0, 0, 0, 0]
            ⟨[], []⟩ (List.replicate 5 1))
          (List.replicate 10 1))
      = [0, 0, 0, 0]
    ∧ [(0 : Nat), 0, 0, 0] ≠ le32 (10 * 2 * 4) := by
  refine ⟨by decide, by decide, by decide⟩

/-- C10 (amended): every flush with a nonempty sample batch seeks to the file
start and overwrites the whole 44-byte header, so after a sequence of flushes
the header -- in particular its RIFF chunk-size field at offsets 4..7 --
reflects only the size of the most recent flush, while the sample data of all
flushes accumulates after it; the data-chunk size field (offsets 40..43) is
never generated by `to_bytes` at all and always holds the uninitialized
4 trailing bytes of the header allocation. -/
theorem wav_sink_flush_overwrites_header (hd : WavHeaderFields)
    (junk : List Nat) (fs0 : WavFileState) (ss : List (List Int))
    (s : List Int) (hs : s ≠ []) :
    ((ss ++ [s]).foldl (wavSinkWriteChunk hd junk) fs0).header
        = wavHeaderToBytes hd s.length ++ junk
    ∧ ((ss ++ [s]).foldl (wavSinkWriteChunk hd junk) fs0).data
        = fs0.data ++ ss.flatten ++ s
    ∧ ((ss ++ [s]).foldl (wavSinkWriteChunk hd junk) fs0).header.take 8
        = le32 hd.chunk_id ++ le32 ((36 + wavDataSize hd s.length) % 4294967296)
    ∧ ((ss ++ [s]).foldl (wavSinkWriteChunk hd junk) fs0).header.drop 40
        = junk := by
  have hlen : s.length ≠ 0 := fun hz => hs (List.length_eq_zero.mp hz)
  have hstep : (ss ++ [s]).foldl (wavSinkWriteChunk hd junk) fs0
      = wavSinkWriteChunk hd junk (ss.foldl (wavSinkWriteChunk hd junk) fs0) s := by
    rw [List.foldl_append]
    rfl
  have hchunk : ∀ fs : WavFileState, wavSinkWriteChunk hd junk fs s
      = { header := wavHeaderToBytes hd s.length ++ junk, data := fs.data ++ s } := by
    intro fs
    unfold wavSinkWriteChunk
    rw [if_neg hlen]
  have hhdr : ((ss ++ [s]).foldl (wavSinkWriteChunk hd junk) fs0).header
      = wavHeaderToBytes hd s.length ++ junk := by
    rw [hstep, hchunk]
  refine ⟨hhdr, ?_, ?_, ?_⟩
  · rw [hstep, hchunk]
    simp [wavSinkWriteChunk_foldl_data, List.append_assoc]
  · rw [hhdr]
    simp only [wavHeaderToBytes, le32, le16]
    rfl
  · rw [hhdr]
    have h40 : (wavHeaderToBytes hd s.length).length = 40 :=
      wavHeaderToBytes_length hd s.length
    rw [← h40, List.drop_left]

/-- Witness for C10 (amended) at a concrete flush sequence. -/
theorem wav_sink_flush_overwrites_header_witness :
    ([(3 : Int), 4] ≠ [])
    ∧ ((([[(1 : Int), 2, 5]] ++ [[3, 4]]).foldl
          (wavSinkWriteChunk (wavSinkHeaderMain 2 44100) [9, 9, 9, 9])
          ⟨[], []⟩).header
        = wavHeaderToBytes (wavSinkHeaderMain 2 44100) (2 : Nat) ++ [9, 9, 9, 9]
      ∧ (([[(1 : Int), 2, 5]] ++ [[3, 4]]).foldl
          (wavSinkWriteChunk (wavSinkHeaderMain 2 44100) [9, 9, 9, 9])
          ⟨[], []⟩).data
        = ([] : List Int) ++ [[(1 : Int), 2, 5]].flatten ++ [3, 4]
      ∧ (([[(1 : Int), 2, 5]] ++ [[3, 4]]).foldl
          (wavSinkWriteChunk (wavSinkHeaderMain 2 44100) [9, 9, 9, 9])
          ⟨[], []⟩).header.take 8
        = le32 (wavSinkHeaderMain 2 44100).chunk_id
            ++ le32 ((36 + wavDataSize (wavSinkHeaderMain 2 44100) (2 : Nat))
                      % 4294967296)
      ∧ (([[(1 : Int), 2, 5]] ++ [[3, 4]]).foldl
          (wavSinkWriteChunk (wavSinkHeaderMain 2 44100) [9, 9, 9, 9])
          ⟨[], []⟩).header.drop 40
        = [9, 9, 9, 9]) :=
  ⟨by decide,
    wav_sink_flush_overwrites_header (wavSinkHeaderMain 2 44100) [9, 9, 9, 9]
      ⟨[], []⟩ [[(1 : Int), 2, 5]] [3, 4] (by decide)⟩

/-! ## C9: the exact read/eof behavior of `WavSource::read` -/

/-- Number of samples the read loop manages to copy into the frame: full
chunks of `min(frame_left, buffer_size)` samples are copied while the decoder
can still deliver them in full; a short chunk contributes nothing (its
samples are discarded by the early `break`). -/
def copiedSamplesGo (bs : Nat) : Nat → Nat → Nat → Nat
  | 0, _, _ => 0
  | fuel + 1, frameLen, R =>
    if frameLen = 0 then 0
    else if bs = 0 then 0
    else if R < min frameLen bs then 0
    else min frameLen bs
      + copiedSamplesGo bs fuel (frameLen - min frameLen bs) (R - min frameLen bs)

/-- Samples copied by one `WavSource::read` call of `frameLen` samples when
`R` decoded samples remain in the file. -/
def copiedSamples (frameLen bs R : Nat) : Nat :=
  copiedSamplesGo bs frameLen frameLen R

theorem copiedSamplesGo_le (bs fuel frameLen R : Nat) :
    copiedSamplesGo bs fuel frameLen R ≤ frameLen := by
  induction fuel generalizing frameLen R with
  | zero => simp [copiedSamplesGo]
  | succ fuel ih =>
    unfold copiedSamplesGo
    split
    · omega
    · split
      · omega
      · split
        · omega
        · have := ih (frameLen - min frameLen bs) (R - min frameLen bs)
          omega

theorem copiedSamplesGo_eq_zero_iff (bs fuel frameLen R : Nat)
    (hf : frameLen ≤ fuel) (hn : frameLen ≠ 0) (hbs : bs ≠ 0) :
    (copiedSamplesGo bs fuel frameLen R = 0 ↔ R < min frameLen bs) := by
  match fuel with
  | 0 => omega
  | fuel + 1 =>
    unfold copiedSamplesGo
    rw [if_neg hn, if_neg hbs]
    split <;> rename_i hR
    · simp [hR]
    · have hmin : 1 ≤ min frameLen bs := by omega
      constructor
      · omega
      · intro h
        omega

theorem copiedSamplesGo_eq_frameLen_iff (bs fuel frameLen R : Nat)
    (hf : frameLen ≤ fuel) (hbs : bs ≠ 0) :
    (copiedSamplesGo bs fuel frameLen R = frameLen ↔ frameLen ≤ R) := by
  induction fuel generalizing frameLen R with
  | zero =>
    have : frameLen = 0 := by omega
    subst this
    simp [copiedSamplesGo]
  | succ fuel ih =>
    unfold copiedSamplesGo
    by_cases hn : frameLen = 0
    · subst hn
      simp
    · rw [if_neg hn, if_neg hbs]
      split <;> rename_i hR
      · constructor
        · intro h
          omega
        · intro h
          omega
      · have hmin1 : 1 ≤ min frameLen bs := by omega
        have hrec := ih (frameLen - min frameLen bs) (R - min frameLen bs) (by omega)
        have hle := copiedSamplesGo_le bs fuel (frameLen - min frameLen bs)
          (R - min frameLen bs)
        omega

/-- Closed form of the read loop for a positive buffer size: either the frame
is filled completely (`c = frameLen` full chunks' worth), or the decoder runs
dry partway, every remaining sample is consumed (the ones of the short final
chunk discarded), the copied prefix is returned and eof is reported. -/
theorem drwavReadChunks_eq (file : List Int) (bs : Nat) (fuel pos frameLeft : Nat)
    (acc : List Int) (hf : frameLeft ≤ fuel) (hbs : bs ≠ 0) :
    drwavReadChunks file bs fuel pos frameLeft acc =
      if copiedSamplesGo bs fuel frameLeft (file.length - pos) = frameLeft then
        (pos + frameLeft, 0, acc ++ (file.drop pos).take frameLeft, false)
      else
        (pos + (file.length - pos),
          frameLeft - copiedSamplesGo bs fuel frameLeft (file.length - pos),
          acc ++ (file.drop pos).take
            (copiedSamplesGo bs fuel frameLeft (file.length - pos)), true) := by
  induction fuel generalizing pos frameLeft acc with
  | zero =>
    have h0 : frameLeft = 0 := by omega
    subst h0
    simp [drwavReadChunks, copiedSamplesGo]
  | succ fuel ih =>
    by_cases hn : frameLeft = 0
    · subst hn
      simp [drwavReadChunks, copiedSamplesGo]
    · have hc0 : copiedSamplesGo bs (fuel + 1) frameLeft (file.length - pos)
          = if frameLeft = 0 then 0
            else if bs = 0 then 0
            else if file.length - pos < min frameLeft bs then 0
            else min frameLeft bs
              + copiedSamplesGo bs fuel (frameLeft - min frameLeft bs)
                  ((file.length - pos) - min frameLeft bs) := rfl
      have hd0 : drwavReadChunks file bs (fuel + 1) pos frameLeft acc
          = if frameLeft = 0 then (pos, 0, acc, false)
            else if bs = 0 then (pos, frameLeft, acc, false)
            else if min (min frameLeft bs) (file.length - pos) < min frameLeft bs
            then (pos + min (min frameLeft bs) (file.length - pos), frameLeft,
                  acc, true)
            else drwavReadChunks file bs fuel (pos + min frameLeft bs)
              (frameLeft - min frameLeft bs)
              (acc ++ (file.drop pos).take (min frameLeft bs)) := rfl
      rw [hd0, if_neg hn, if_neg hbs]
      by_cases hshort : file.length - pos < min frameLeft bs
      · -- the very first chunk is short: nothing is copied
        have hcz : copiedSamplesGo bs (fuel + 1) frameLeft (file.length - pos)
            = 0 := by
          rw [hc0, if_neg hn, if_neg hbs, if_pos hshort]
        rw [if_pos (by omega), hcz, if_neg (fun h => hn h.symm)]
        have hgot : min (min frameLeft bs) (file.length - pos)
            = file.length - pos := by omega
        rw [hgot]
        simp
      · -- a full chunk is copied and the loop continues
        have hR : min frameLeft bs ≤ file.length - pos := by omega
        have hcs : copiedSamplesGo bs (fuel + 1) frameLeft (file.length - pos)
            = min frameLeft bs
              + copiedSamplesGo bs fuel (frameLeft - min frameLeft bs)
                  ((file.length - pos) - min frameLeft bs) := by
          rw [hc0, if_neg hn, if_neg hbs, if_neg hshort]
        rw [if_neg (by omega)]
        have hrec := ih (pos + min frameLeft bs) (frameLeft - min frameLeft bs)
          (acc ++ (file.drop pos).take (min frameLeft bs)) (by omega)
        have hR' : file.length - (pos + min frameLeft bs)
            = (file.length - pos) - min frameLeft bs := by omega
        rw [hR'] at hrec
        rw [hrec, hcs]
        have hmin1 : 1 ≤ min frameLeft bs := by omega
        have hminle : min frameLeft bs ≤ frameLeft := by omega
        have hle := copiedSamplesGo_le bs fuel (frameLeft - min frameLeft bs)
          ((file.length - pos) - min frameLeft bs)
        have htake : ∀ k : Nat,
            (acc ++ (file.drop pos).take (min frameLeft bs))
                ++ (file.drop (pos + min frameLeft bs)).take k
              = acc ++ (file.drop pos).take (min frameLeft bs + k) := by
          intro k
          rw [List.append_assoc]
          congr 1
          rw [List.take_add]
          congr 1
          simp [List.drop_drop, Nat.add_comm]
        by_cases hcase : copiedSamplesGo bs fuel (frameLeft - min frameLeft bs)
            ((file.length - pos) - min frameLeft bs) = frameLeft - min frameLeft bs
        · rw [if_pos hcase, if_pos (by omega)]
          rw [htake]
          have h1 : pos + min frameLeft bs + (frameLeft - min frameLeft bs)
              = pos + frameLeft := by omega
          have h2 : min frameLeft bs + (frameLeft - min frameLeft bs)
              = frameLeft := by omega
          rw [h1, h2]
        · rw [if_neg hcase, if_neg (by omega)]
          rw [htake]
          have h1 : pos + min frameLeft bs
                + ((file.length - pos) - min frameLeft bs)
              = pos + (file.length - pos) := by omega
          have h2 : frameLeft - min frameLeft bs
                - copiedSamplesGo bs fuel (frameLeft - min frameLeft bs)
                    ((file.length - pos) - min frameLeft bs)
              = frameLeft - (min frameLeft bs
                  + copiedSamplesGo bs fuel (frameLeft - min frameLeft bs)
                      ((file.length - pos) - min frameLeft bs)) := by omega
          rw [h1, h2]

/-- C9 counterexample: a fresh opened source whose file still yields one
sample (not zero), read with a 4-sample frame and a 2-sample buffer.  The
claim would require a true return with a zero-filled tail; the code consumes
and discards the short first chunk and returns false. -/
theorem wav_source_read_discards_short_first_chunk :
    (⟨true, false, false, true, 0, [7], 2⟩ : WavSourceState).paused = false
    ∧ (⟨true, false, false, true, 0, [7], 2⟩ : WavSourceState).eof = false
    ∧ (⟨true, false, false, true, 0, [7], 2⟩ : WavSourceState).fileData.length
        - (⟨true, false, false, true, 0, [7], 2⟩ : WavSourceState).pos = 1
    ∧ (wavSourceReadCall ⟨true, false, false, true, 0, [7], 2⟩ 4).1
        = CallResult.ret false
    ∧ (wavSourceReadCall ⟨true, false, false, true, 0, [7], 2⟩ 4).2.1.eof
        = true := by
  decide

/-- C9 (amended): for an open, valid, active source with a positive buffer
size and a nonzero frame, `read` returns false exactly when fewer decoded
samples remain than the first chunk requests (`min(frameLen, buffer_size)`)
-- including the case of a nonempty short first chunk, whose samples are
consumed but discarded; when at least one full chunk fits, `read` returns
true, copying `c` samples and zero-filling the remaining `frameLen - c`; the
eof flag is set exactly when the file ends inside the frame, any read in the
eof state returns false without state change, and a successful `restart`
clears eof (and pause) and rewinds to the start. -/
theorem wav_source_read_characterization (st : WavSourceState) (frameLen m : Nat)
    (hp : st.paused = false) (he : st.eof = false) (ho : st.file_opened = true)
    (hbs : st.buffer_size ≠ 0) (hn : frameLen ≠ 0) :
    (wavSourceReadCall st frameLen =
      if copiedSamples frameLen st.buffer_size (st.fileData.length - st.pos) = 0 then
        (CallResult.ret false,
          { st with pos := st.pos + (st.fileData.length - st.pos), eof := true }, [])
      else if copiedSamples frameLen st.buffer_size (st.fileData.length - st.pos)
          = frameLen then
        (CallResult.ret true,
          { st with pos := st.pos + frameLen, eof := false },
          (st.fileData.drop st.pos).take frameLen)
      else
        (CallResult.ret true,
          { st with pos := st.pos + (st.fileData.length - st.pos), eof := true },
          (st.fileData.drop st.pos).take
              (copiedSamples frameLen st.buffer_size (st.fileData.length - st.pos))
            ++ List.replicate
                (frameLen
                  - copiedSamples frameLen st.buffer_size
                      (st.fileData.length - st.pos)) 0))
    ∧ (copiedSamples frameLen st.buffer_size (st.fileData.length - st.pos) = 0
        ↔ st.fileData.length - st.pos < min frameLen st.buffer_size)
    ∧ (copiedSamples frameLen st.buffer_size (st.fileData.length - st.pos)
          = frameLen
        ↔ frameLen ≤ st.fileData.length - st.pos)
    ∧ ((wavSourceReadCall st frameLen).1 = CallResult.ret false
        ↔ st.fileData.length - st.pos < min frameLen st.buffer_size)
    ∧ ((wavSourceReadCall st frameLen).2.1.eof = true
        ↔ st.fileData.length - st.pos < frameLen)
    ∧ wavSourceReadCall { st with eof := true } m
        = (CallResult.ret false, { st with eof := true }, [])
    ∧ wavSourceRestart { st with eof := true } true
        = ({ st with pos := 0, paused := false, eof := false }, true) := by
  have hB : copiedSamples frameLen st.buffer_size (st.fileData.length - st.pos) = 0
      ↔ st.fileData.length - st.pos < min frameLen st.buffer_size :=
    copiedSamplesGo_eq_zero_iff st.buffer_size frameLen frameLen
      (st.fileData.length - st.pos) (le_refl frameLen) hn hbs
  have hC : copiedSamples frameLen st.buffer_size (st.fileData.length - st.pos)
        = frameLen
      ↔ frameLen ≤ st.fileData.length - st.pos :=
    copiedSamplesGo_eq_frameLen_iff st.buffer_size frameLen frameLen
      (st.fileData.length - st.pos) (le_refl frameLen) hbs
  have hle : copiedSamples frameLen st.buffer_size (st.fileData.length - st.pos)
      ≤ frameLen :=
    copiedSamplesGo_le st.buffer_size frameLen frameLen
      (st.fileData.length - st.pos)
  have hloop : drwavReadLoop st.fileData st.buffer_size st.pos frameLen []
      = if copiedSamples frameLen st.buffer_size (st.fileData.length - st.pos)
          = frameLen then
          (st.pos + frameLen, 0, ([] : List Int)
              ++ (st.fileData.drop st.pos).take frameLen, false)
        else
          (st.pos + (st.fileData.length - st.pos),
            frameLen - copiedSamples frameLen st.buffer_size
                (st.fileData.length - st.pos),
            ([] : List Int) ++ (st.fileData.drop st.pos).take
              (copiedSamples frameLen st.buffer_size
                (st.fileData.length - st.pos)), true) :=
    drwavReadChunks_eq st.fileData st.buffer_size frameLen st.pos frameLen []
      (le_refl frameLen) hbs
  have hguard : wavSourceReadCall st frameLen =
      (if (drwavReadLoop st.fileData st.buffer_size st.pos frameLen []).2.1
          = frameLen then
        (CallResult.ret false,
          { st with pos := (drwavReadLoop st.fileData st.buffer_size st.pos
                              frameLen []).1,
                    eof := (drwavReadLoop st.fileData st.buffer_size st.pos
                              frameLen []).2.2.2 }, [])
      else
        (CallResult.ret true,
          { st with pos := (drwavReadLoop st.fileData st.buffer_size st.pos
                              frameLen []).1,
                    eof := (drwavReadLoop st.fileData st.buffer_size st.pos
                              frameLen []).2.2.2 },
          (drwavReadLoop st.fileData st.buffer_size st.pos frameLen []).2.2.1
            ++ List.replicate
                (drwavReadLoop st.fileData st.buffer_size st.pos frameLen []).2.1
                0)) := by
    unfold wavSourceReadCall
    rw [hp, he, ho]
    rfl
  have hA : wavSourceReadCall st frameLen =
      if copiedSamples frameLen st.buffer_size (st.fileData.length - st.pos)
          = 0 then
        (CallResult.ret false,
          { st with pos := st.pos + (st.fileData.length - st.pos), eof := true },
          [])
      else if copiedSamples frameLen st.buffer_size (st.fileData.length - st.pos)
          = frameLen then
        (CallResult.ret true,
          { st with pos := st.pos + frameLen, eof := false },
          (st.fileData.drop st.pos).take frameLen)
      else
        (CallResult.ret true,
          { st with pos := st.pos + (st.fileData.length - st.pos), eof := true },
          (st.fileData.drop st.pos).take
              (copiedSamples frameLen st.buffer_size (st.fileData.length - st.pos))
            ++ List.replicate
                (frameLen
                  - copiedSamples frameLen st.buffer_size
                      (st.fileData.length - st.pos)) 0) := by
    by_cases hcf : copiedSamples frameLen st.buffer_size
        (st.fileData.length - st.pos) = frameLen
    · have hcz : ¬copiedSamples frameLen st.buffer_size
          (st.fileData.length - st.pos) = 0 := by omega
      rw [hguard, hloop]
      conv_rhs => rw [if_neg hcz, if_pos hcf]
      conv_lhs => rw [if_pos hcf]
      dsimp only
      rw [if_neg (show ¬(0 : Nat) = frameLen from fun h => hn h.symm)]
      simp
    · by_cases hcz : copiedSamples frameLen st.buffer_size
          (st.fileData.length - st.pos) = 0
      · rw [hguard, hloop]
        conv_rhs => rw [if_pos hcz]
        conv_lhs => rw [if_neg hcf]
        dsimp only
        rw [hcz]
        simp
      · rw [hguard, hloop]
        conv_rhs => rw [if_neg hcz, if_neg hcf]
        conv_lhs => rw [if_neg hcf]
        dsimp only
        rw [if_neg (show ¬frameLen
            - copiedSamples frameLen st.buffer_size (st.fileData.length - st.pos)
            = frameLen from by omega)]
        simp
  refine ⟨hA, hB, hC, ?_, ?_, ?_, ?_⟩
  · rw [hA]
    by_cases hcz : copiedSamples frameLen st.buffer_size
        (st.fileData.length - st.pos) = 0
    · rw [if_pos hcz]
      exact iff_of_true rfl (hB.mp hcz)
    · rw [if_neg hcz]
      have hR : ¬(st.fileData.length - st.pos < min frameLen st.buffer_size) :=
        fun h => hcz (hB.mpr h)
      by_cases hcf : copiedSamples frameLen st.buffer_size
          (st.fileData.length - st.pos) = frameLen
      · rw [if_pos hcf]
        exact iff_of_false (by simp) hR
      · rw [if_neg hcf]
        exact iff_of_false (by simp) hR
  · rw [hA]
    by_cases hcz : copiedSamples frameLen st.buffer_size
        (st.fileData.length - st.pos) = 0
    · rw [if_pos hcz]
      have hlt : st.fileData.length - st.pos < min frameLen st.buffer_size :=
        hB.mp hcz
      exact iff_of_true rfl (by omega)
    · rw [if_neg hcz]
      by_cases hcf : copiedSamples frameLen st.buffer_size
          (st.fileData.length - st.pos) = frameLen
      · rw [if_pos hcf]
        have hge : frameLen ≤ st.fileData.length - st.pos := hC.mp hcf
        exact iff_of_false (by simp) (by omega)
      · rw [if_neg hcf]
        have hlt : ¬frameLen ≤ st.fileData.length - st.pos :=
          fun h => hcf (hC.mpr h)
        exact iff_of_true rfl (by omega)
  · unfold wavSourceReadCall
    simp
  · cases st
    simp [wavSourceRestart]

/-- Witness for C9 (amended): a source whose file holds 3 samples, read with
an 8-sample frame and 2-sample buffer: one full chunk of 2 samples is copied,
the third sample is consumed and discarded, the frame tail is zero-filled,
eof is set and the call returns true. -/
theorem wav_source_read_characterization_witness :
    ((⟨true, false, false, true, 0, [1, 2, 3], 2⟩ : WavSourceState).paused = false
      ∧ (⟨true, false, false, true, 0, [1, 2, 3], 2⟩ : WavSourceState).eof = false
      ∧ (⟨true, false, false, true, 0, [1, 2, 3], 2⟩ : WavSourceState).file_opened
          = true
      ∧ (⟨true, false, false, true, 0, [1, 2, 3], 2⟩ : WavSourceState).buffer_size
          ≠ 0
      ∧ (8 : Nat) ≠ 0)
    ∧ wavSourceReadCall ⟨true, false, false, true, 0, [1, 2, 3], 2⟩ 8
        = (CallResult.ret true, ⟨true, false, true, true, 3, [1, 2, 3], 2⟩,
            [1, 2, 0, 0, 0, 0, 0, 0]) :=
  ⟨⟨rfl, rfl, rfl, by decide, by decide⟩, by
    have h := (wav_source_read_characterization
      ⟨true, false, false, true, 0, [1, 2, 3], 2⟩ 8 1 rfl rfl rfl
      (by decide) (by decide)).1
    rw [h]
    decide⟩

/-! ## Pipeline test scenarios
(`src/tests/roc_pipeline/test_sender_sink_receiver_source.cpp`) -/

/-- Test constants (lines 35-51 of the test file). -/
def SamplesPerFrame : Nat := 10

/-- Samples per packet (line 41). -/
def SamplesPerPacket : Nat := 40

/-- Source packets per FEC block (line 44). -/
def SourcePackets : Nat := 20

/-- Repair packets per FEC block (line 45). -/
def RepairPackets : Nat := 10

/-- Receiver latency in samples (line 47). -/
def Latency : Nat := SamplesPerPacket * SourcePackets

/-- Frames written by `send_receive` (line 50). -/
def ManyFrames : Nat := Latency / SamplesPerFrame * 10

/-- Scenario flags (lines 53-74). -/
def FlagDropSource : Nat := 1

/-- Drop all repair packets on the receiver (line 61). -/
def FlagDropRepair : Nat := 2

/-- Enable periodic packet losses on the sender (line 64). -/
def FlagLosses : Nat := 4

/-- Enable packet interleaving (line 67). -/
def FlagInterleaving : Nat := 8

/-- Select the Reed-Solomon FEC scheme (line 70). -/
def FlagReedSolomon : Nat := 16

/-- Select the LDPC-Staircase FEC scheme (line 73). -/
def FlagLDPC : Nat := 32

/-- The slice of a `packet::Packet` that `filter_packets` inspects: whether
`FlagRepair` is set in the packet flags. -/
structure RocPacket where
  repair : Bool
  deriving DecidableEq

/-- The loop body of `filter_packets` (test file lines 174-194) with the
running `counter`.  The counter is incremented only when `FlagLosses` is set
(short-circuit `&&` with `counter++` on its right); every 30th position
(`counter % (SourcePackets + RepairPackets) == 1`) is dropped as a simulated
loss; then repair packets are dropped under `FlagDropRepair` and source
packets under `FlagDropSource`. -/
def filter_packets_go (flags : Nat) : Nat → List RocPacket → List RocPacket
  | _, [] => []
  | counter, p :: rest =>
    if flags &&& FlagLosses ≠ 0 then
      if counter % (SourcePackets + RepairPackets) = 1 then
        filter_packets_go flags (counter + 1) rest
      else if p.repair ∧ flags &&& FlagDropRepair ≠ 0 then
        filter_packets_go flags (counter + 1) rest
      else if ¬p.repair ∧ flags &&& FlagDropSource ≠ 0 then
        filter_packets_go flags (counter + 1) rest
      else p :: filter_packets_go flags (counter + 1) rest
    else
      if p.repair ∧ flags &&& FlagDropRepair ≠ 0 then
        filter_packets_go flags counter rest
      else if ¬p.repair ∧ flags &&& FlagDropSource ≠ 0 then
        filter_packets_go flags counter rest
      else p :: filter_packets_go flags counter rest

/-- `filter_packets` of the test file: filters the queue drained from the
sender before handing packets to the receiver endpoints. -/
def filter_packets (flags : Nat) (pkts : List RocPacket) : List RocPacket :=
  filter_packets_go flags 0 pkts

/-- Modelled from the spec: the receiver pipeline (`ReceiverSource`,
`ReceiverSlot`, session table) is not part of the source excerpt.  Per the
spec a Session is "created lazily on first packet" arriving for the slot's
audio-source endpoint, and the scenarios of this test run a single sender, so
the receiver observes one session as soon as any surviving source
(non-repair) packet is delivered, and zero sessions otherwise -- which is the
count `receiver.num_sessions()` reports after every read (test line 287). -/
def receiver_num_sessions (delivered : List RocPacket) : Nat :=
  if delivered.any (fun p => !p.repair) then 1 else 0

/-- A pipeline test scenario: filter flags plus the session count the test
asserts after every read. -/
structure TestScenario where
  flags : Nat
  num_sess : Nat
  deriving DecidableEq

/-- `TEST(sender_sink_receiver_source, fec_drop_source)` (test lines
342-348): Reed-Solomon FEC with all source packets dropped; the expected
session count is `NumSess = 0`. -/
def fec_drop_source : TestScenario :=
  { flags := FlagReedSolomon ||| FlagDropSource, num_sess := 0 }

/-- `TEST(sender_sink_receiver_source, fec_drop_repair)` (test lines
350-356): all repair packets dropped; `NumSess = 1`. -/
def fec_drop_repair : TestScenario :=
  { flags := FlagReedSolomon ||| FlagDropRepair, num_sess := 1 }

/-- `TEST(sender_sink_receiver_source, fec_loss)` (test lines 334-340):
Reed-Solomon FEC with one loss per 30 packets; `NumSess = 1`. -/
def fec_loss : TestScenario :=
  { flags := FlagReedSolomon ||| FlagLosses, num_sess := 1 }

/-- One FEC block's worth of packets as the sender emits them: 20 source
packets followed by 10 repair packets. -/
def one_fec_block : List RocPacket :=
  List.replicate SourcePackets ⟨false⟩ ++ List.replicate RepairPackets ⟨true⟩

/-- C1 counterexample: in the `fec_drop_source` scenario (all source packets
dropped, repair packets present) the repository's own test expects 0 active
sessions, not 1, and the modelled receiver observes 0 sessions on a full FEC
block -- so "exactly 1 active session (full recovery)" is false. -/
theorem fec_drop_source_sessions_zero :
    fec_drop_source.num_sess = 0
    ∧ receiver_num_sessions (filter_packets fec_drop_source.flags one_fec_block)
        = 0
    ∧ ¬fec_drop_source.num_sess = 1
    ∧ ¬receiver_num_sessions (filter_packets fec_drop_source.flags one_fec_block)
        = 1 := by
  decide

theorem filter_packets_go_drop_source (flags : Nat)
    (hds : flags &&& FlagDropSource ≠ 0) (counter : Nat)
    (pkts : List RocPacket) :
    ∀ p ∈ filter_packets_go flags counter pkts, p.repair = true := by
  induction pkts generalizing counter with
  | nil =>
    intro p hp
    simp [filter_packets_go] at hp
  | cons q rest ih =>
    intro p hp
    unfold filter_packets_go at hp
    by_cases hloss : flags &&& FlagLosses ≠ 0
    · rw [if_pos hloss] at hp
      split at hp
      · exact ih _ p hp
      · split at hp
        · exact ih _ p hp
        · split at hp
          · exact ih _ p hp
          · rename_i hkeep
            rcases List.mem_cons.mp hp with hpq | hp'
            · subst hpq
              by_contra hq
              exact hkeep ⟨hq, hds⟩
            · exact ih _ p hp'
    · rw [if_neg hloss] at hp
      split at hp
      · exact ih _ p hp
      · split at hp
        · exact ih _ p hp
        · rename_i hkeep
          rcases List.mem_cons.mp hp with hpq | hp'
          · subst hpq
            by_contra hq
            exact hkeep ⟨hq, hds⟩
          · exact ih _ p hp'

/-- C1 (amended): in the `fec_drop_source` scenario the receiver observes
exactly the test's expected session count -- 0, not 1 -- after every read,
whatever the sender emitted: with every source packet dropped only repair
packets reach the receiver, and repair packets alone never create a
session. -/
theorem fec_drop_source_session_count (pkts : List RocPacket) :
    receiver_num_sessions (filter_packets fec_drop_source.flags pkts)
      = fec_drop_source.num_sess := by
  have h := filter_packets_go_drop_source fec_drop_source.flags (by decide) 0 pkts
  have hnone : (filter_packets_go fec_drop_source.flags 0 pkts).any
      (fun p => !p.repair) = false := by
    rw [List.any_eq_false]
    intro p hp
    simp [h p hp]
  unfold receiver_num_sessions filter_packets
  rw [hnone]
  decide

/-! ## C3: lossless round trip with FEC disabled
The sender/receiver pipeline (`SenderSink`, `ReceiverSource`) is not part of
the source excerpt; it is modelled from the spec against the test constants. -/

/-- `k` successive packets of `n` samples cut from the head of a stream. -/
def chunksN (n : Nat) : Nat → List Int → List (List Int)
  | 0, _ => []
  | k + 1, xs => xs.take n :: chunksN n k (xs.drop n)

/-- Modelled from the spec: the sender pipeline (`SenderSink`, not in the
excerpt) serializes the written frames in order into source packets of
`SamplesPerPacket` samples; a partial trailing packet stays buffered. -/
def sender_packets (frames : List (List Int)) : List (List Int) :=
  chunksN SamplesPerPacket (frames.flatten.length / SamplesPerPacket)
    frames.flatten

/-- Modelled from the spec: the receiver pipeline (`ReceiverSource`, not in
the excerpt) plays a latency-sized warm-up of silence and then, with no
packet loss and FEC disabled, the delivered payloads in order. -/
def receiver_output (pkts : List (List Int)) : List Int :=
  List.replicate Latency 0 ++ pkts.flatten

theorem chunksN_flatten (n k : Nat) (xs : List Int) :
    (chunksN n k xs).flatten = xs.take (k * n) := by
  induction k generalizing xs with
  | zero => simp [chunksN]
  | succ k ih =>
    simp only [chunksN, List.flatten_cons, ih]
    rw [show (k + 1) * n = n + k * n by ring, List.take_add]

/-- C3: with no packet loss and FEC disabled, the receiver's output is the
latency warm-up of silence followed, sample for sample, by exactly the
written sample sequence (the written samples fill whole packets; a remainder
would still sit in the sender's packetizer). -/
theorem lossless_round_trip (frames : List (List Int))
    (h : SamplesPerPacket ∣ frames.flatten.length) :
    receiver_output (sender_packets frames)
      = List.replicate Latency 0 ++ frames.flatten := by
  unfold receiver_output sender_packets
  congr 1
  rw [chunksN_flatten]
  rcases h with ⟨k, hk⟩
  have hP : SamplesPerPacket = 40 := rfl
  have hdiv : frames.flatten.length / SamplesPerPacket * SamplesPerPacket
      = frames.flatten.length := by
    rw [hk, hP]
    omega
  rw [hdiv, List.take_length]

/-- Witness for C3: four 10-sample frames (exactly one packet's worth). -/
theorem lossless_round_trip_witness :
    SamplesPerPacket
        ∣ (List.replicate 4 (List.replicate 10 (3 : Int))).flatten.length
    ∧ receiver_output (sender_packets (List.replicate 4 (List.replicate 10 3)))
        = List.replicate Latency 0
            ++ (List.replicate 4 (List.replicate 10 (3 : Int))).flatten :=
  ⟨⟨1, by decide⟩,
    lossless_round_trip (List.replicate 4 (List.replicate 10 3)) ⟨1, by decide⟩⟩

/-! ## C8: channel conversion preserves duration
(`src/tests/roc_pipeline/test_converter_source.cpp`; the `ConverterSource`
itself is not part of the source excerpt and is modelled from the spec.) -/

/-- Samples per frame in the converter tests (test file line 28). -/
def ConvSamplesPerFrame : Nat := 20

/-- Frames read in the converter tests (test file line 29). -/
def ConvManyFrames : Nat := 30

/-- Modelled from the spec: mono-to-stereo remixing duplicates each mono
sample into both channels (black-box frame transformer; only sample counts
matter to the claim). -/
def monoToStereo : List Int → List Int
  | [] => []
  | x :: xs => x :: x :: monoToStereo xs

/-- Modelled from the spec: stereo-to-mono remixing averages each
left/right pair into one sample. -/
def stereoToMono : List Int → List Int
  | x :: y :: xs => (x + y) / 2 :: stereoToMono xs
  | _ => []

/-- Modelled from the spec: one `ConverterSource::read` of a frame of
`frameLen` time-samples pulls `frameLen * inCh` interleaved samples from the
input source and remixes them into the output frame. -/
def converter_read (inCh : Nat) (remix : List Int → List Int) (frameLen : Nat)
    (input : List Int) : List Int × List Int :=
  (remix (input.take (frameLen * inCh)), input.drop (frameLen * inCh))

/-- `n` successive converter reads: total produced samples and leftover
input. -/
def converter_read_many (inCh : Nat) (remix : List Int → List Int)
    (frameLen : Nat) : Nat → List Int → List Int × List Int
  | 0, input => ([], input)
  | n + 1, input =>
    ((converter_read inCh remix frameLen input).1
        ++ (converter_read_many inCh remix frameLen n
              (converter_read inCh remix frameLen input).2).1,
      (converter_read_many inCh remix frameLen n
        (converter_read inCh remix frameLen input).2).2)

theorem length_monoToStereo (xs : List Int) :
    (monoToStereo xs).length = 2 * xs.length := by
  induction xs with
  | nil => simp [monoToStereo]
  | cons x xs ih =>
    simp [monoToStereo, ih]
    ring

theorem length_stereoToMono (xs : List Int) :
    (stereoToMono xs).length = xs.length / 2 := by
  match xs with
  | [] => simp [stereoToMono]
  | [x] => simp [stereoToMono]
  | x :: y :: rest =>
    have ih := length_stereoToMono rest
    simp [stereoToMono, ih]
    omega

theorem converter_read_many_consumes (inCh : Nat)
    (remix : List Int → List Int) (frameLen n : Nat) (input : List Int)
    (hlen : input.length = n * (frameLen * inCh)) :
    (converter_read_many inCh remix frameLen n input).2 = [] := by
  induction n generalizing input with
  | zero =>
    simp only [converter_read_many]
    rw [Nat.zero_mul] at hlen
    exact List.length_eq_zero.mp hlen
  | succ n ih =>
    simp only [converter_read_many]
    apply ih
    simp only [converter_read]
    rw [List.length_drop, hlen]
    ring_nf
    omega

theorem converter_read_many_produces (inCh : Nat)
    (remix : List Int → List Int) (frameLen n perFrame : Nat)
    (input : List Int) (hlen : input.length = n * (frameLen * inCh))
    (hremix : ∀ ys : List Int, ys.length = frameLen * inCh
      → (remix ys).length = perFrame) :
    (converter_read_many inCh remix frameLen n input).1.length
      = n * perFrame := by
  induction n generalizing input with
  | zero => simp [converter_read_many]
  | succ n ih =>
    simp only [converter_read_many, List.length_append]
    have htail : (input.drop (frameLen * inCh)).length
        = n * (frameLen * inCh) := by
      rw [List.length_drop, hlen]
      ring_nf
      omega
    have hfst : (converter_read inCh remix frameLen input).1
        = remix (input.take (frameLen * inCh)) := rfl
    have hsnd : (converter_read inCh remix frameLen input).2
        = input.drop (frameLen * inCh) := rfl
    rw [hfst, hsnd, hremix (input.take (frameLen * inCh))
        (by rw [List.length_take, hlen]; ring_nf; omega)]
    rw [ih (input.drop (frameLen * inCh)) htail]
    ring

/-- C8: converting between mono and stereo with resampling disabled preserves
time-domain duration.  Reading the test's `ManyFrames` frames of
`SamplesPerFrame` time-samples consumes the entire input in both directions,
and the totals satisfy `consumed * outCh = produced * inCh`: mono input to
stereo output doubles the interleaved sample count, stereo input to mono
output halves it. -/
theorem channel_conversion_preserves_duration (inm ins : List Int)
    (h1 : inm.length = ConvManyFrames * (ConvSamplesPerFrame * 1))
    (h2 : ins.length = ConvManyFrames * (ConvSamplesPerFrame * 2)) :
    (converter_read_many 1 monoToStereo ConvSamplesPerFrame ConvManyFrames
        inm).2 = []
    ∧ (converter_read_many 1 monoToStereo ConvSamplesPerFrame ConvManyFrames
          inm).1.length * 1 = inm.length * 2
    ∧ (converter_read_many 2 stereoToMono ConvSamplesPerFrame ConvManyFrames
          ins).2 = []
    ∧ (converter_read_many 2 stereoToMono ConvSamplesPerFrame ConvManyFrames
          ins).1.length * 2 = ins.length * 1 := by
  refine ⟨converter_read_many_consumes 1 monoToStereo ConvSamplesPerFrame
      ConvManyFrames inm h1, ?_, converter_read_many_consumes 2 stereoToMono
      ConvSamplesPerFrame ConvManyFrames ins h2, ?_⟩
  · rw [converter_read_many_produces 1 monoToStereo ConvSamplesPerFrame
      ConvManyFrames (ConvSamplesPerFrame * 2) inm h1
      (fun ys hy => by rw [length_monoToStereo, hy]; ring)]
    rw [h1]
    ring
  · rw [converter_read_many_produces 2 stereoToMono ConvSamplesPerFrame
      ConvManyFrames ConvSamplesPerFrame ins h2
      (fun ys hy => by rw [length_stereoToMono, hy]; decide)]
    rw [h2]
    ring

/-- Witness for C8 at concrete constant inputs of 600 and 1200 samples. -/
theorem channel_conversion_preserves_duration_witness :
    ((List.replicate 600 (7 : Int)).length
        = ConvManyFrames * (ConvSamplesPerFrame * 1)
      ∧ (List.replicate 1200 (7 : Int)).length
          = ConvManyFrames * (ConvSamplesPerFrame * 2))
    ∧ ((converter_read_many 1 monoToStereo ConvSamplesPerFrame ConvManyFrames
          (List.replicate 600 (7 : Int))).2 = []
      ∧ (converter_read_many 1 monoToStereo ConvSamplesPerFrame ConvManyFrames
            (List.replicate 600 (7 : Int))).1.length * 1
          = (List.replicate 600 (7 : Int)).length * 2
      ∧ (converter_read_many 2 stereoToMono ConvSamplesPerFrame ConvManyFrames
            (List.replicate 1200 (7 : Int))).2 = []
      ∧ (converter_read_many 2 stereoToMono ConvSamplesPerFrame ConvManyFrames
            (List.replicate 1200 (7 : Int))).1.length * 2
          = (List.replicate 1200 (7 : Int)).length * 1) :=
  ⟨⟨by norm_num [ConvManyFrames, ConvSamplesPerFrame],
      by norm_num [ConvManyFrames, ConvSamplesPerFrame]⟩,
    channel_conversion_preserves_duration (List.replicate 600 7)
      (List.replicate 1200 7)
      (by norm_num [ConvManyFrames, ConvSamplesPerFrame])
      (by norm_num [ConvManyFrames, ConvSamplesPerFrame])⟩

/-! ## C4: FEC recovery bound
Modelled from the spec: the FEC codec adapter (`roc_fec`, Reed-Solomon over
GF(2^8)) is not part of the source excerpt.  Per spec section 4.3 the codec
is an erasure code over blocks of `n` source plus `k` repair equal-size
payloads: `decode` receives a subset of the `n+k` payloads with known
positions and reconstructs the missing source payloads whenever at least `n`
are present; unsupported block sizes or an insufficient packet count yield an
explicit cannot-reconstruct result.  The model instantiates the payload
symbols in the prime field `ZMod 257` (standing in for GF(2^8); blocks are
limited to 257 positions as the real codec limits them to 255) and uses the
classic systematic Reed-Solomon construction: the codeword is the evaluation
of the unique degree-< n polynomial through the source payloads. -/

/-- Payload symbol field of the modelled Reed-Solomon codec. -/
abbrev GF : Type := ZMod 257

instance : Fact (Nat.Prime 257) := ⟨by norm_num⟩

/-- Computable Lagrange evaluation: the value at `x` of the interpolating
polynomial through the nodes `v j` with values `r j`, `j ∈ s`. -/
def lagEval {ι : Type} [DecidableEq ι] (s : Finset ι) (v r : ι → GF)
    (x : GF) : GF :=
  ∑ j ∈ s, r j * ∏ m ∈ s.erase j, (v j - v m)⁻¹ * (x - v m)

/-- Modelled from the spec: `encode` emits the `n + k` codeword payloads of a
block; position `i` carries the evaluation at node `i` of the unique
degree-< n polynomial whose values at nodes `0..n-1` are the source
payloads (so the first `n` positions are the source payloads themselves). -/
def rsEncode (n k : Nat) (f : Fin n → GF) (i : Fin (n + k)) : GF :=
  lagEval Finset.univ (fun j : Fin n => ((j : Nat) : GF)) f ((i : Nat) : GF)

/-- Modelled from the spec: `decode` receives the surviving positions
`present` with their payloads `v`; with an unsupported block size or fewer
than `n` survivors it reports an explicit cannot-reconstruct (`none`),
otherwise it re-interpolates the block polynomial from the survivors and
re-evaluates it at the source nodes. -/
def rsDecode (n k : Nat) (present : Finset (Fin (n + k)))
    (v : Fin (n + k) → GF) : Option (Fin n → GF) :=
  if n + k ≤ 257 ∧ n ≤ present.card then
    some (fun j =>
      lagEval present (fun i : Fin (n + k) => ((i : Nat) : GF)) v
        ((j : Nat) : GF))
  else none

theorem lagEval_eq_eval_interpolate {ι : Type} [DecidableEq ι] (s : Finset ι)
    (v r : ι → GF) (x : GF) :
    lagEval s v r x = Polynomial.eval x (Lagrange.interpolate s v r) := by
  rw [Lagrange.interpolate_apply, Polynomial.eval_finset_sum]
  refine Finset.sum_congr rfl fun j hj => ?_
  rw [Polynomial.eval_mul, Polynomial.eval_C]
  simp only [Lagrange.basis, Polynomial.eval_prod]
  refine congrArg (r j * ·) (Finset.prod_congr rfl fun m hm => ?_)
  simp only [Lagrange.basisDivisor, Polynomial.eval_mul, Polynomial.eval_C,
    Polynomial.eval_sub, Polynomial.eval_X]

theorem natCast_injOn_gf (N : Nat) (hN : N ≤ 257) (s : Set (Fin N)) :
    Set.InjOn (fun i : Fin N => ((i : Nat) : GF)) s := by
  intro i _ j _ hij
  have hv := congrArg ZMod.val hij
  simp only [ZMod.val_natCast] at hv
  have hi : (i : Nat) < 257 := lt_of_lt_of_le i.isLt hN
  have hj : (j : Nat) < 257 := lt_of_lt_of_le j.isLt hN
  apply Fin.ext
  omega

/-- C4: for every FEC block of `n` source plus `k` repair payloads (within
the supported block size): if at most `k` of the `n + k` payloads are
missing, decode exactly reconstructs all `n` source payloads; if more than
`k` are missing, decode reports an explicit cannot-reconstruct result. -/
theorem fec_recovery_bound (n k : Nat) (hnk : n + k ≤ 257) (f : Fin n → GF)
    (present : Finset (Fin (n + k))) :
    (n + k - present.card ≤ k →
      rsDecode n k present (fun i => rsEncode n k f i) = some f)
    ∧ (k < n + k - present.card →
      rsDecode n k present (fun i => rsEncode n k f i) = none) := by
  have hcard_le : present.card ≤ n + k := by
    have h := Finset.card_le_univ present
    simpa using h
  constructor
  · intro hmiss
    have hn_le : n ≤ present.card := by omega
    unfold rsDecode
    rw [if_pos ⟨hnk, hn_le⟩]
    refine congrArg some (funext fun j => ?_)
    have hinj_src : Set.InjOn (fun j : Fin n => ((j : Nat) : GF))
        (Finset.univ : Finset (Fin n)) :=
      natCast_injOn_gf n (by omega) _
    have hinj_pres : Set.InjOn (fun i : Fin (n + k) => ((i : Nat) : GF))
        (present : Set (Fin (n + k))) :=
      natCast_injOn_gf (n + k) hnk _
    have h1 : (Lagrange.interpolate Finset.univ
          (fun j : Fin n => ((j : Nat) : GF)) f).degree
        < (Finset.univ : Finset (Fin n)).card :=
      Lagrange.degree_interpolate_lt f hinj_src
    have hdegP : (Lagrange.interpolate Finset.univ
          (fun j : Fin n => ((j : Nat) : GF)) f).degree < present.card := by
      refine lt_of_lt_of_le h1 ?_
      have : (Finset.univ : Finset (Fin n)).card = n := by simp
      rw [this]
      exact_mod_cast hn_le
    have hEnc : ∀ i : Fin (n + k), rsEncode n k f i
        = Polynomial.eval ((i : Nat) : GF)
            (Lagrange.interpolate Finset.univ
              (fun j : Fin n => ((j : Nat) : GF)) f) := by
      intro i
      unfold rsEncode
      rw [lagEval_eq_eval_interpolate]
    have hPinterp : Lagrange.interpolate present
          (fun i : Fin (n + k) => ((i : Nat) : GF))
          (fun i => rsEncode n k f i)
        = Lagrange.interpolate Finset.univ
            (fun j : Fin n => ((j : Nat) : GF)) f := by
      rw [show (fun i => rsEncode n k f i)
          = fun i : Fin (n + k) => Polynomial.eval ((i : Nat) : GF)
              (Lagrange.interpolate Finset.univ
                (fun j : Fin n => ((j : Nat) : GF)) f) from funext hEnc]
      exact (Lagrange.eq_interpolate hinj_pres hdegP).symm
    rw [lagEval_eq_eval_interpolate, hPinterp]
    have hnode := Lagrange.eval_interpolate_at_node f hinj_src
      (Finset.mem_univ j)
    simpa using hnode
  · intro hmiss
    have hlt : ¬n ≤ present.card := by omega
    unfold rsDecode
    rw [if_neg (fun h => hlt h.2)]

/-- Witness for C4: a block of 2 source payloads (3 and 5) and 1 repair
payload, with the middle position lost -- one erasure, equal to k, so the
survivors {0, 2} reconstruct both source payloads exactly. -/
theorem fec_recovery_bound_witness :
    (2 + 1 ≤ 257
      ∧ 2 + 1 - ({0, 2} : Finset (Fin (2 + 1))).card ≤ 1)
    ∧ rsDecode 2 1 {0, 2} (fun i => rsEncode 2 1 ![3, 5] i) = some ![3, 5] :=
  ⟨⟨by norm_num, by decide⟩,
    (fec_recovery_bound 2 1 (by norm_num) ![3, 5] {0, 2}).1 (by decide)⟩
